import Mathlib

/-!
Verification of the browser-use orchestration engine against its specification.

The development shallowly embeds the components the claims are about:
the conversation-history manager (`MessageHistory`), the DOM fingerprint
engine (`HistoryTreeProcessor`), the action-batch runner (`Agent.multi_act`)
and the outer run loop (`Agent.run`).  Content hashes (SHA-256 hexdigests in
the source) are modelled by the canonical strings they hash: the source only
ever compares digests for equality, so every statement below is faithful up
to SHA-256 collisions.
-/

set_option autoImplicit false

namespace BrowserUse

/-! ## Conversation history (`MessageHistory`) -/

/-- Metadata carried with every managed message: its estimated token cost.
Token counts are Python ints, modelled as `Int`. -/
structure MessageMetadata where
  input_tokens : Int
deriving Repr, DecidableEq

/-- One history entry: the message payload (modelled by its content string)
plus its metadata. -/
structure ManagedMessage where
  content : String
  metadata : MessageMetadata
deriving Repr, DecidableEq

/-- Modelled from the spec: the module defining `MessageHistory`
(`browser_use/agent/message_manager/views.py`) is not among the provided
sources; only its tests (`src/tests/test_views.py`) are.  Per section 4.2 the
history is an ordered (message, token-cost) log with a running
`total_tokens`. -/
structure MessageHistory where
  messages : List ManagedMessage
  total_tokens : Int
deriving Repr, DecidableEq

/-- The empty history. -/
def MessageHistory.empty : MessageHistory := ⟨[], 0⟩

/-- Index resolution of a Python `list.insert`: `min p len` for non-negative
`p`, `max 0 (len + p)` for negative `p` (`Int.toNat` clamps at `0`). -/
def pyInsertIndex (len : Nat) (p : Int) : Nat :=
  if p < 0 then ((len : Int) + p).toNat else min p.toNat len

/-- Modelled from the spec (section 4.2) and `src/tests/test_views.py`:
`MessageHistory.add_message` appends when no position is given, otherwise
inserts at the position resolved by Python `list.insert`, and increments
`total_tokens` by the message cost.  The negative-position behaviour follows
the parenthetical of section 4.2 (position `-1` inserts before the current
last element) and `test_negative_insertion_position`, which pin down
`list.insert` semantics and contradict the clamp formula also stated there;
see the C6 theorems. -/
def MessageHistory.add_message (h : MessageHistory) (content : String)
    (metadata : MessageMetadata) (position : Option Int) : MessageHistory :=
  let entry : ManagedMessage := ⟨content, metadata⟩
  let msgs :=
    match position with
    | none => h.messages ++ [entry]
    | some p =>
      let i := pyInsertIndex h.messages.length p
      h.messages.take i ++ entry :: h.messages.drop i
  ⟨msgs, h.total_tokens + metadata.input_tokens⟩

/-- Resolution of a Python sequence index: negative indices count from the
end. -/
def resolveIndex (len : Nat) (i : Int) : Int :=
  if i < 0 then (len : Int) + i else i

/-- Modelled from the spec (section 4.2): `MessageHistory.remove_message`
removes one entry and decrements `total_tokens`; a removal attempt on an
empty history is a no-op; on a non-empty history an index that does not
resolve into `[0, len)` fails with an out-of-range error (Python `list.pop`
raises `IndexError` before mutating). -/
def MessageHistory.remove_message (h : MessageHistory) (index : Int) :
    Except String MessageHistory :=
  if h.messages.isEmpty then .ok h
  else
    let resolved : Int := resolveIndex h.messages.length index
    if resolved < 0 then .error "pop index out of range"
    else
      match h.messages.get? resolved.toNat with
      | none => .error "pop index out of range"
      | some entry =>
        .ok ⟨h.messages.take resolved.toNat ++ h.messages.drop (resolved.toNat + 1),
             h.total_tokens - entry.metadata.input_tokens⟩

/-- One operation on a conversation history: an `add_message` (with optional
insertion position) or a `remove_message`.  A failed removal leaves the
history unchanged (the exception propagates past the history). -/
inductive HistoryOp where
  | add (content : String) (tokens : Int) (position : Option Int)
  | removeAt (index : Int)
deriving Repr

/-- Apply one operation. -/
def applyOp (h : MessageHistory) : HistoryOp → MessageHistory
  | .add content tokens position => h.add_message content ⟨tokens⟩ position
  | .removeAt index =>
    match h.remove_message index with
    | .ok h2 => h2
    | .error _ => h

/-- Apply a sequence of operations, oldest first. -/
def applyOps (ops : List HistoryOp) (h : MessageHistory) : MessageHistory :=
  ops.foldl applyOp h

/-- The sum of the token costs of the entries currently in the history. -/
def tokenSum (h : MessageHistory) : Int :=
  (h.messages.map (fun m => m.metadata.input_tokens)).sum

theorem sum_map_insertAt (l : List ManagedMessage) (i : Nat) (a : ManagedMessage)
    (f : ManagedMessage → Int) :
    ((l.take i ++ a :: l.drop i).map f).sum = (l.map f).sum + f a := by
  have hsplit : ((l.take i).map f).sum + ((l.drop i).map f).sum = (l.map f).sum := by
    rw [← List.sum_append, ← List.map_append, List.take_append_drop]
  rw [List.map_append, List.sum_append, List.map_cons, List.sum_cons]
  omega

theorem sum_map_removeAt (l : List ManagedMessage) (n : Nat) (entry : ManagedMessage)
    (f : ManagedMessage → Int) (hget : l.get? n = some entry) :
    ((l.take n ++ l.drop (n + 1)).map f).sum = (l.map f).sum - f entry := by
  obtain ⟨hlt, hEntry⟩ := List.get?_eq_some.mp hget
  have hdrop : l.drop n = entry :: l.drop (n + 1) := by
    rw [List.drop_eq_getElem_cons hlt]
    congr 1
  have hsum : (l.map f).sum
      = ((l.take n).map f).sum + (f entry + ((l.drop (n + 1)).map f).sum) := by
    conv_lhs => rw [← List.take_append_drop n l]
    rw [hdrop, List.map_append, List.sum_append, List.map_cons, List.sum_cons]
  rw [List.map_append, List.sum_append]
  omega

theorem tokenSum_add_message (h : MessageHistory) (content : String)
    (metadata : MessageMetadata) (position : Option Int) :
    tokenSum (h.add_message content metadata position)
      = tokenSum h + metadata.input_tokens := by
  unfold MessageHistory.add_message tokenSum
  cases position with
  | none => simp
  | some p =>
    simpa using sum_map_insertAt h.messages (pyInsertIndex h.messages.length p)
      ⟨content, metadata⟩ (fun m => m.metadata.input_tokens)

theorem remove_message_invariant (h : MessageHistory) (index : Int)
    (h2 : MessageHistory) (hok : h.remove_message index = .ok h2)
    (hinv : tokenSum h = h.total_tokens) : tokenSum h2 = h2.total_tokens := by
  unfold MessageHistory.remove_message at hok
  by_cases hemp : h.messages.isEmpty
  · simp only [hemp, if_pos] at hok
    cases hok
    exact hinv
  · simp only [hemp, Bool.false_eq_true, if_neg, not_false_iff] at hok
    by_cases hneg : resolveIndex h.messages.length index < 0
    · simp [hneg] at hok
    · simp only [hneg, if_neg, not_false_iff] at hok
      cases hget : h.messages.get? (resolveIndex h.messages.length index).toNat with
      | none => rw [hget] at hok; cases hok
      | some entry =>
        rw [hget] at hok
        cases hok
        have := sum_map_removeAt h.messages (resolveIndex h.messages.length index).toNat
          entry (fun m => m.metadata.input_tokens) hget
        unfold tokenSum at hinv ⊢
        simp only at this ⊢
        omega

/-! ## DOM fingerprints (`HistoryTreeProcessor`,
`src/browser_use/dom/history_tree_processor/service.py`) -/

/-- Content hash: the source computes `hashlib.sha256(s.encode()).hexdigest()` and only ever
compares the digests for equality; the embedding models the digest by the canonical string
itself, which is faithful up to SHA-256 collisions (digest equality holds exactly when the
hashed strings are equal). -/
def sha256hex (s : String) : String := s

/-- `str.startswith`, computed over the character lists (kept kernel-reducible). -/
def strStartsWith (s pre : String) : Bool := pre.data.isPrefixOf s.data

/-- The fixed denylist of volatile attribute keys, verbatim from the default
`exclude_attributes` argument of `HistoryTreeProcessor._attributes_hash`. -/
def exclude_attributes : List String :=
  ["data-ved", "data-hveid", "jsname", "ping", "data-ga", "data-analytics", "data-gtm",
   "data-click-id", "data-tracking",
   "data-reactid", "data-hydrated", "data-rendered", "data-timestamp", "data-random",
   "data-unique",
   "data-testid", "data-cy", "data-test", "data-e2e",
   "data-state", "data-status", "data-loading", "data-expanded", "data-selected",
   "data-session",
   "data-v", "ng-version", "data-rendered-timestamp"]

/-- The excluded key prefixes of `HistoryTreeProcessor._attributes_hash`. -/
def excluded_prefixes : List String := ["ng-", "v-", "data-v-"]

/-- The filter of `_attributes_hash`: an attribute key survives when it is neither in the
denylist nor carries an excluded framework prefix. -/
def attributeKept (key : String) : Bool :=
  !(exclude_attributes.contains key) && !(excluded_prefixes.any (fun p => strStartsWith key p))

/-- The canonical attribute string of `_attributes_hash`: `key=value` pairs of the kept
attributes, joined in order.  Attribute maps are Python dicts iterated in insertion order,
modelled as association lists. -/
def attributesString (attributes : List (String × String)) : String :=
  String.join (((attributes.filter (fun kv => attributeKept kv.1)).map
    (fun kv => kv.1 ++ "=" ++ kv.2)))

/-- `HistoryTreeProcessor._attributes_hash`. -/
def attributes_hash (attributes : List (String × String)) : String :=
  sha256hex (attributesString attributes)

/-- `HistoryTreeProcessor._parent_branch_path_hash`. -/
def parent_branch_path_hash (parent_branch_path : List String) : String :=
  sha256hex (String.intercalate "/" parent_branch_path)

/-- `HistoryTreeProcessor._xpath_hash`. -/
def xpath_hash (xpath : String) : String := sha256hex xpath

/-- `HashedDomElement` (the element fingerprint): branch-path hash, attributes hash, xpath
hash, and the derived css selector. -/
structure HashedDomElement where
  branch_path_hash : String
  attributes_hash : String
  xpath_hash : String
  css_selector : String
deriving Repr, DecidableEq

/-- A DOM node.  Element nodes carry exactly the fields the history tree processor reads
(`tag_name`, `xpath`, `attributes`, `highlight_index`, `shadow_root`, `children`); text
children exist in the tree but are skipped by every traversal in the source
(`isinstance(child, DOMElementNode)`). -/
inductive DOMNode where
  | element (tag_name : String) (xpath : String) (attributes : List (String × String))
      (highlight_index : Option Nat) (shadow_root : Bool) (children : List DOMNode)
  | textNode (text : String)

def DOMNode.tagName : DOMNode → String
  | .element t _ _ _ _ _ => t
  | .textNode _ => ""

def DOMNode.xpathOf : DOMNode → String
  | .element _ x _ _ _ _ => x
  | .textNode _ => ""

def DOMNode.attributesOf : DOMNode → List (String × String)
  | .element _ _ a _ _ _ => a
  | .textNode _ => []

def DOMNode.highlightIndex : DOMNode → Option Nat
  | .element _ _ _ hi _ _ => hi
  | .textNode _ => none

def DOMNode.shadowRoot : DOMNode → Bool
  | .element _ _ _ _ sr _ => sr
  | .textNode _ => false

/-- Safe attribute keys appended to the derived css selector.  Modelled from the spec
(section 4.1): the selector appends "classes and safe attribute predicates"; none of these
keys is volatile or framework-generated. -/
def safeAttributeKeys : List String :=
  ["id", "name", "type", "placeholder", "aria-label", "role", "for", "autocomplete",
   "title", "alt"]

/-- Modelled from the spec: `BrowserContext._enhanced_css_selector_for_element` is not among
the provided sources.  Per section 4.1 the css selector is the xpath converted to CSS with
classes and safe attribute predicates appended. -/
def enhanced_css_selector_for_element (node : DOMNode) : String :=
  let base := String.mk (node.xpathOf.data.map (fun c => if c = '/' then '>' else c))
  let classPart :=
    match node.attributesOf.lookup "class" with
    | some c => "." ++ c
    | none => ""
  let attrPart :=
    String.join ((node.attributesOf.filter
        (fun kv => safeAttributeKeys.contains kv.1)).map
      (fun kv => "[" ++ kv.1 ++ "=" ++ kv.2 ++ "]"))
  base ++ classPart ++ attrPart

/-- `HistoryTreeProcessor._hash_dom_element`.  The embedded trees carry no parent pointers,
so the parent branch path computed by `_get_parent_branch_path` (the tag names of the
root-exclusive ancestor chain down to and including the node itself) is supplied by the
caller as `branch`. -/
def hash_dom_element (branch : List String) (node : DOMNode) : HashedDomElement :=
  ⟨parent_branch_path_hash branch, attributes_hash node.attributesOf,
   xpath_hash node.xpathOf, enhanced_css_selector_for_element node⟩

/-- `DOMHistoryElement` (persisted counterpart of a node captured at action time). -/
structure DOMHistoryElement where
  tag_name : String
  xpath : String
  highlight_index : Option Nat
  entire_parent_branch_path : List String
  attributes : List (String × String)
  shadow_root : Bool
  css_selector : String
deriving Repr, DecidableEq

/-- `HistoryTreeProcessor.convert_dom_element_to_history_element`; `branch` is the parent
branch path of `node` (see `hash_dom_element`). -/
def convert_dom_element_to_history_element (branch : List String) (node : DOMNode) :
    DOMHistoryElement :=
  ⟨node.tagName, node.xpathOf, node.highlightIndex, branch, node.attributesOf,
   node.shadowRoot, enhanced_css_selector_for_element node⟩

/-- `HistoryTreeProcessor._hash_dom_history_element`. -/
def hash_dom_history_element (h : DOMHistoryElement) : HashedDomElement :=
  ⟨parent_branch_path_hash h.entire_parent_branch_path, attributes_hash h.attributes,
   xpath_hash h.xpath, h.css_selector⟩

/-- The default `match_criteria` of `find_history_element_in_tree`. -/
def default_match_criteria : List String :=
  ["branch_path", "attributes", "xpath", "css_selector"]

/-- The per-node test of `find_history_element_in_tree.process_node`: one Boolean per
requested criterion, all of which must hold (`all(matches)`). -/
def matchesCriteria (crit : List String) (cand target : HashedDomElement) : Bool :=
  (!(crit.contains "branch_path") || cand.branch_path_hash == target.branch_path_hash) &&
  (!(crit.contains "attributes") || cand.attributes_hash == target.attributes_hash) &&
  (!(crit.contains "xpath") || cand.xpath_hash == target.xpath_hash) &&
  (!(crit.contains "css_selector") || cand.css_selector == target.css_selector)

mutual
/-- The element nodes of a tree in depth-first preorder (the traversal order of
`process_node`), each paired with its parent branch path; text children are skipped. -/
def nodesWithBranch : List String → DOMNode → List (List String × DOMNode)
  | branch, .element t x a hi sr children =>
    (branch, DOMNode.element t x a hi sr children) :: nodesWithBranchChildren branch children
  | _, .textNode _ => []
/-- Preorder traversal of a child list; an element child extends the branch path with its own
tag name. -/
def nodesWithBranchChildren : List String → List DOMNode → List (List String × DOMNode)
  | _, [] => []
  | branch, c :: cs =>
    nodesWithBranch (branch ++ [c.tagName]) c ++ nodesWithBranchChildren branch cs
end

/-- The `all_matches` list built by `find_history_element_in_tree.process_node`: the
highlighted nodes whose hash satisfies every requested criterion, in traversal order (the
source appends to `all_matches` during the same preorder walk, so the list equals the
preorder node list filtered by the per-node test). -/
def collectMatches (crit : List String) (target : HashedDomElement)
    (branch : List String) (node : DOMNode) : List (List String × DOMNode) :=
  (nodesWithBranch branch node).filter
    (fun p => p.2.highlightIndex.isSome
      && matchesCriteria crit (hash_dom_element p.1 p.2) target)

/-- `HistoryTreeProcessor.find_history_element_in_tree`: raises `ValueError` on an empty
criteria list, otherwise returns the first match of the traversal (`all_matches[0]`) or
`None` when there is no match.  A returned node is paired with its branch path (the python
node object reaches its ancestors through parent pointers). -/
def find_history_element_in_tree (dom_history_element : DOMHistoryElement) (tree : DOMNode)
    (match_criteria : List String) : Except String (Option (List String × DOMNode)) :=
  if match_criteria = [] then
    .error "match_criteria cannot be empty - at least one criteria must be provided (branch_path, attributes, xpath)"
  else
    .ok ((collectMatches match_criteria
      (hash_dom_history_element dom_history_element) [] tree).head?)

theorem hash_of_convert (branch : List String) (node : DOMNode) :
    hash_dom_history_element (convert_dom_element_to_history_element branch node)
      = hash_dom_element branch node := rfl

theorem matchesCriteria_refl (crit : List String) (h : HashedDomElement) :
    matchesCriteria crit h h = true := by
  simp [matchesCriteria]

/-! ## Action batch execution (`Agent.multi_act`,
`src/browser_use/agent/service.py` lines 893-959) -/

/-- Modelled from the spec (section 3): the current agent views module defining
`ActionResult` is not among the provided sources (src holds an older historical snapshot);
the fields are the ones `Agent.multi_act` and `Agent.run` read and write. -/
structure ActionResult where
  is_done : Bool
  extracted_content : Option String
  error : Option String
  include_in_memory : Bool
deriving Repr, DecidableEq

/-- An action as seen by `multi_act`: the drift checks consult only `get_index()`. -/
structure ActionModel where
  index : Option Nat
deriving Repr, DecidableEq

/-- A selector map: highlight index to element, the element read only through its cached
fingerprint `e.hash` (a `HashedDomElement`). -/
abbrev SelectorMap := List (Nat × HashedDomElement)

/-- The branch-path hashes of a selector map, the basis of the
`cached_path_hashes` / `new_path_hashes` sets in `multi_act`. -/
def pathHashes (m : SelectorMap) : List String :=
  m.map (fun e => e.2.branch_path_hash)

/-- Python `set.issubset` on the underlying hash collections. -/
def subsetB (xs ys : List String) : Bool := xs.all (fun x => ys.contains x)

/-- The environment of one `multi_act` call: `states i` is the selector map the browser
returns from `get_state` before action `i`, and `act i` is the outcome of
`controller.act` on action `i` (`none` models an `asyncio.CancelledError` raised while
executing it). -/
structure MultiActEnv where
  states : Nat → SelectorMap
  act : Nat → Option ActionResult

/-- The synthetic drift message of `multi_act` (`i` of `n` actions). -/
def elementChangedMsg (i n : Nat) : String :=
  "Element index changed after action " ++ toString i ++ " / " ++ toString n
    ++ ", because page changed."

/-- The synthetic new-elements message of `multi_act`. -/
def somethingNewMsg (i n : Nat) : String :=
  "Something new appeared after action " ++ toString i ++ " / " ++ toString n

/-- The result recorded for a cancelled action. -/
def cancelledResult : ActionResult :=
  ⟨false, none, some "The action was cancelled due to Ctrl+C", true⟩

/-- The loop body of `Agent.multi_act`: iterate over the remaining actions (`i` is the
position of the head inside the full batch of `n` actions).  Before every index-addressed
action beyond the first, compare the branch-path hash now at that index against the cached
one (mismatch aborts with a synthetic element-changed result) and, when
`check_for_new_elements` is set, require the current branch-path-hash set to be a subset of
the cached one (otherwise abort with a synthetic new-elements result).  Then execute the
action; stop on a done result, an error result, the end of the batch, or cancellation
(recording `cancelledResult` only when no results were accumulated yet).  Returns the
accumulated results plus whether the loop re-raised a cancellation. -/
def multiActLoop (env : MultiActEnv) (cached : SelectorMap) (cachedPathHashes : List String)
    (check_for_new_elements : Bool) (n : Nat) :
    List ActionModel → Nat → List ActionResult → List ActionResult × Bool
  | [], _, results => (results, false)
  | action :: rest, i, results =>
    let executePart : List ActionResult × Bool :=
      match env.act i with
      | none =>
        (if results.isEmpty then [cancelledResult] else results, true)
      | some result =>
        let results2 := results ++ [result]
        if result.is_done || result.error.isSome || rest.isEmpty then (results2, false)
        else multiActLoop env cached cachedPathHashes check_for_new_elements n rest (i + 1)
          results2
    if action.index.isSome && i != 0 then
      let new_selector_map := env.states i
      let orig_target_hash :=
        (cached.lookup (action.index.getD 0)).map (fun e => e.branch_path_hash)
      let new_target_hash :=
        (new_selector_map.lookup (action.index.getD 0)).map (fun e => e.branch_path_hash)
      if orig_target_hash ≠ new_target_hash then
        (results ++ [⟨false, some (elementChangedMsg i n), none, true⟩], false)
      else if check_for_new_elements
          && !(subsetB (pathHashes new_selector_map) cachedPathHashes) then
        (results ++ [⟨false, some (somethingNewMsg i n), none, true⟩], false)
      else executePart
    else executePart

/-- `Agent.multi_act`: cache the selector map and its branch-path-hash set, then run the
action loop from position `0` with no accumulated results. -/
def multi_act (env : MultiActEnv) (actions : List ActionModel)
    (cached_selector_map : SelectorMap) (check_for_new_elements : Bool) :
    List ActionResult × Bool :=
  multiActLoop env cached_selector_map (pathHashes cached_selector_map)
    check_for_new_elements actions.length actions 0 []

/-! ## The run loop (`Agent.run`, `src/browser_use/agent/service.py` lines 801-858) -/

/-- Step timing/token metadata; the wall-clock fields of the source are outside the
embedding. -/
structure StepMetadata where
  step_number : Nat
  input_tokens : Nat
deriving Repr, DecidableEq

/-- `BrowserStateHistory` (the per-record state snapshot). -/
structure BrowserStateHistory where
  url : String
  title : String
  tabs : List String
  interacted_element : List (Option DOMHistoryElement)
  screenshot : Option String
deriving Repr, DecidableEq

/-- One history record (`AgentHistory`): the model output is opaque to the run loop and
modelled by its presence. -/
structure AgentHistoryRec where
  model_output : Option Unit
  result : List ActionResult
  state : BrowserStateHistory
  metadata : Option StepMetadata
deriving Repr, DecidableEq

/-- The run state owned by the controller: accumulated history, consecutive-failure count
and the stop flag.  The pause flag is driven by a blocking wait on external input and the
embedding covers executions in which it is never set. -/
structure AgentState where
  history : List AgentHistoryRec
  consecutive_failures : Nat
  stopped : Bool
deriving Repr, DecidableEq

/-- Modelled from the spec (section 4.4): `AgentHistoryList.is_done` in its current form is
not among the provided sources — the run is done when the last recorded action result marks
`is_done`. -/
def historyIsDone (history : List AgentHistoryRec) : Bool :=
  match history.getLast? with
  | some rec1 =>
    match rec1.result.getLast? with
    | some r => r.is_done
    | none => false
  | none => false

/-- The synthetic record appended by the for-else branch of `Agent.run` when the step budget
is exhausted without a done result. -/
def maxStepsFailureRecord : AgentHistoryRec :=
  { model_output := none
    result := [⟨false, none, some "Failed to complete task in maximum steps", true⟩]
    state := { url := "", title := "", tabs := [], interacted_element := [],
               screenshot := none }
    metadata := none }

/-- The `for step in range(max_steps)` loop of `Agent.run`: `remaining` counts the loop
iterations left (`step + remaining = max_steps` at every call).  Each iteration breaks on an
exhausted failure budget or the stop flag, otherwise runs one step (`stepF`, the whole of
`Agent.step` including the records it appends); a done history breaks too unless output
validation is on, this is not the last step, and the validator (`validateF`) rejects — then
the loop continues.  Returns the final state and whether the loop exited through a
`break`. -/
def runLoop (stepF : Nat → AgentState → AgentState) (validateF : Nat → Bool)
    (max_failures max_steps : Nat) (validate_output : Bool) :
    Nat → Nat → AgentState → AgentState × Bool
  | 0, _, st => (st, false)
  | remaining + 1, step, st =>
    if max_failures ≤ st.consecutive_failures then (st, true)
    else if st.stopped then (st, true)
    else
      let st2 := stepF step st
      if historyIsDone st2.history then
        if validate_output && decide (step < max_steps - 1) && !(validateF step) then
          runLoop stepF validateF max_failures max_steps validate_output remaining
            (step + 1) st2
        else (st2, true)
      else
        runLoop stepF validateF max_failures max_steps validate_output remaining
          (step + 1) st2

/-- `Agent.run` (without initial actions): run the step loop; on normal exhaustion (python
for-else) append the synthetic failure record; return the accumulated history. -/
def runAgent (stepF : Nat → AgentState → AgentState) (validateF : Nat → Bool)
    (max_failures max_steps : Nat) (validate_output : Bool) (st0 : AgentState) :
    List AgentHistoryRec :=
  if (runLoop stepF validateF max_failures max_steps validate_output max_steps 0 st0).2
  then (runLoop stepF validateF max_failures max_steps validate_output max_steps 0
    st0).1.history
  else (runLoop stepF validateF max_failures max_steps validate_output max_steps 0
    st0).1.history ++ [maxStepsFailureRecord]

/-! ## Theorems for claims C4, C6, C7 -/

theorem applyOp_invariant (h : MessageHistory) (op : HistoryOp)
    (hinv : tokenSum h = h.total_tokens) :
    tokenSum (applyOp h op) = (applyOp h op).total_tokens := by
  cases op with
  | add content tokens position =>
    unfold applyOp
    rw [tokenSum_add_message, hinv]
    rfl
  | removeAt index =>
    have hred : applyOp h (.removeAt index)
        = match h.remove_message index with
          | .ok h2 => h2
          | .error _ => h := rfl
    rw [hred]
    cases hrem : h.remove_message index with
    | ok h2 => exact remove_message_invariant h index h2 hrem hinv
    | error e => exact hinv

theorem applyOps_invariant (ops : List HistoryOp) : ∀ h : MessageHistory,
    tokenSum h = h.total_tokens → tokenSum (applyOps ops h) = (applyOps ops h).total_tokens := by
  induction ops with
  | nil => intro h hinv; exact hinv
  | cons op rest ih =>
    intro h hinv
    simp only [applyOps, List.foldl_cons] at *
    exact ih (applyOp h op) (applyOp_invariant h op hinv)

/-- C4: after every finite sequence of `add_message` (append/insert) and `remove_message`
(removeAt) operations on a conversation history, starting from the empty history,
`total_tokens` equals the sum of the token costs of the entries currently present. -/
theorem C4_token_accounting (ops : List HistoryOp) :
    tokenSum (applyOps ops MessageHistory.empty)
      = (applyOps ops MessageHistory.empty).total_tokens :=
  applyOps_invariant ops MessageHistory.empty rfl

/-- The history holding A (cost 4) then B (cost 6), built by plain appends. -/
def historyAB : MessageHistory :=
  (MessageHistory.empty.add_message "A" ⟨4⟩ none).add_message "B" ⟨6⟩ none

/-- C6 counterexample: on history [A, B], `append(C, position = -1)` yields [A, C, B] — the
new entry lands at index 1, not at the index `max(0, len+1+position) = 2` the claim states
for negative positions (inserting there would yield [A, B, C]). -/
theorem C6_counterexample :
    ((historyAB.add_message "C" ⟨2⟩ (some (-1))).messages.map (fun m => m.content)
        = ["A", "C", "B"])
    ∧ ((historyAB.add_message "C" ⟨2⟩ (some (-1))).messages.get?
          (max 0 ((historyAB.messages.length : Int) + 1 + (-1))).toNat
        ≠ some ⟨"C", ⟨2⟩⟩) := by decide

/-- C6 (amended): `add_message` inserts at `clamp(position, 0, len)` for non-negative
positions and at `max(0, len + position)` for negative positions (Python `list.insert`
semantics): on history [A, B], `append(C, position = -1)` yields [A, C, B] and
`append(C, position = 10)` yields [A, B, C]. -/
theorem C6_insertion_semantics :
    (∀ (h : MessageHistory) (content : String) (md : MessageMetadata) (p : Int), 0 ≤ p →
      (h.add_message content md (some p)).messages
        = h.messages.take (min p.toNat h.messages.length) ++ ⟨content, md⟩ ::
            h.messages.drop (min p.toNat h.messages.length))
    ∧ (∀ (h : MessageHistory) (content : String) (md : MessageMetadata) (p : Int), p < 0 →
      (h.add_message content md (some p)).messages
        = h.messages.take ((h.messages.length : Int) + p).toNat ++ ⟨content, md⟩ ::
            h.messages.drop ((h.messages.length : Int) + p).toNat)
    ∧ ((historyAB.add_message "C" ⟨2⟩ (some (-1))).messages.map (fun m => m.content)
        = ["A", "C", "B"])
    ∧ ((historyAB.add_message "C" ⟨2⟩ (some 10)).messages.map (fun m => m.content)
        = ["A", "B", "C"]) := by
  refine ⟨?_, ?_, by decide, by decide⟩
  · intro h content md p hp
    simp [MessageHistory.add_message, pyInsertIndex, not_lt.mpr hp]
  · intro h content md p hp
    simp [MessageHistory.add_message, pyInsertIndex, hp]

theorem C6_insertion_semantics_witness :
    ((historyAB.add_message "C" ⟨2⟩ (some 10)).messages
        = historyAB.messages.take (min (10 : Int).toNat historyAB.messages.length)
          ++ ⟨"C", ⟨2⟩⟩ ::
            historyAB.messages.drop (min (10 : Int).toNat historyAB.messages.length))
    ∧ ((historyAB.add_message "C" ⟨2⟩ (some (-1))).messages
        = historyAB.messages.take ((historyAB.messages.length : Int) + (-1)).toNat
          ++ ⟨"C", ⟨2⟩⟩ ::
            historyAB.messages.drop ((historyAB.messages.length : Int) + (-1)).toNat) :=
  ⟨C6_insertion_semantics.1 historyAB "C" ⟨2⟩ 10 (by decide),
   C6_insertion_semantics.2.1 historyAB "C" ⟨2⟩ (-1) (by decide)⟩

/-- C7: `remove_message` with its default index (-1) on the empty history is a no-op (same
history back, no error); on every non-empty history, an index that does not resolve inside
`[0, len)` fails with an out-of-range error (the history is returned unchanged only through
the error path, never silently mutated). -/
theorem C7_remove_edge_cases :
    (MessageHistory.empty.remove_message (-1) = .ok MessageHistory.empty)
    ∧ (∀ (h : MessageHistory) (i : Int), h.messages ≠ [] →
        ¬ (0 ≤ resolveIndex h.messages.length i
            ∧ resolveIndex h.messages.length i < (h.messages.length : Int)) →
        h.remove_message i = .error "pop index out of range") := by
  constructor
  · rfl
  · intro h i hne hout
    have hemp : h.messages.isEmpty = false := by
      simpa [List.isEmpty_iff] using hne
    unfold MessageHistory.remove_message
    rw [hemp]
    simp only [Bool.false_eq_true, if_false]
    by_cases hneg : resolveIndex h.messages.length i < 0
    · rw [if_pos hneg]
    · rw [if_neg hneg]
      have hnone : h.messages.get? (resolveIndex h.messages.length i).toNat = none := by
        rw [List.get?_eq_none]
        omega
      rw [hnone]

/-- The history holding the single message A (cost 5). -/
def historyOne : MessageHistory := MessageHistory.empty.add_message "A" ⟨5⟩ none

theorem C7_remove_edge_cases_witness :
    (MessageHistory.empty.remove_message (-1) = .ok MessageHistory.empty)
    ∧ historyOne.remove_message 5 = .error "pop index out of range" :=
  ⟨C7_remove_edge_cases.1, C7_remove_edge_cases.2 historyOne 5 (by decide) (by decide)⟩

/-! ## Theorems for claims C2, C9, C10 -/

theorem matchesCriteria_default_eq (cand target : HashedDomElement)
    (h : matchesCriteria default_match_criteria cand target = true) : cand = target := by
  simp only [matchesCriteria, default_match_criteria] at h
  simp only [show (["branch_path", "attributes", "xpath", "css_selector"].contains
      "branch_path") = true from rfl,
    show (["branch_path", "attributes", "xpath", "css_selector"].contains
      "attributes") = true from rfl,
    show (["branch_path", "attributes", "xpath", "css_selector"].contains
      "xpath") = true from rfl,
    show (["branch_path", "attributes", "xpath", "css_selector"].contains
      "css_selector") = true from rfl,
    Bool.not_true, Bool.false_or, Bool.and_eq_true, beq_iff_eq] at h
  obtain ⟨⟨⟨e1, e2⟩, e3⟩, e4⟩ := h
  cases cand
  cases target
  simp_all

/-- C2: for every DOM element node `n` with a highlight index contained in a tree `t`
(visited at branch path `b`), `find_history_element_in_tree` applied to
`convert_dom_element_to_history_element n` and `t` with the default match criteria returns a
non-null node whose fingerprint components (branch-path hash, attributes hash, xpath hash,
css selector) all equal those of `n`. -/
theorem C2_replay_round_trip (t : DOMNode) (b : List String) (n : DOMNode)
    (hmem : (b, n) ∈ nodesWithBranch [] t)
    (hhi : n.highlightIndex.isSome = true) :
    ∃ q : List String × DOMNode,
      find_history_element_in_tree (convert_dom_element_to_history_element b n) t
          default_match_criteria = .ok (some q)
        ∧ hash_dom_element q.1 q.2 = hash_dom_element b n := by
  have htgt : hash_dom_history_element (convert_dom_element_to_history_element b n)
      = hash_dom_element b n := hash_of_convert b n
  have hmemC : (b, n) ∈ collectMatches default_match_criteria
      (hash_dom_history_element (convert_dom_element_to_history_element b n)) [] t := by
    unfold collectMatches
    refine List.mem_filter.mpr ⟨hmem, ?_⟩
    simp only [htgt, hhi, Bool.true_and]
    exact matchesCriteria_refl _ _
  cases hcm : collectMatches default_match_criteria
      (hash_dom_history_element (convert_dom_element_to_history_element b n)) [] t with
  | nil => rw [hcm] at hmemC; cases hmemC
  | cons q rest =>
    have hqmem : q ∈ collectMatches default_match_criteria
        (hash_dom_history_element (convert_dom_element_to_history_element b n)) [] t := by
      rw [hcm]; exact List.mem_cons_self _ _
    unfold collectMatches at hqmem
    have hcond := (List.mem_filter.mp hqmem).2
    rw [Bool.and_eq_true] at hcond
    have hmatch := hcond.2
    rw [htgt] at hmatch
    refine ⟨q, ?_, matchesCriteria_default_eq _ _ hmatch⟩
    unfold find_history_element_in_tree
    rw [if_neg (by decide : ¬ default_match_criteria = []), hcm]
    rfl

/-- A concrete highlighted leaf element for witnesses. -/
def demoLeaf : DOMNode :=
  .element "button" "/html/body/button" [("id", "go")] (some 3) false []

/-- The body element of the demo tree. -/
def demoBody : DOMNode :=
  .element "body" "/html/body" [] none false [demoLeaf, .textNode "hi"]

/-- A concrete tree containing `demoLeaf` at branch path ["body", "button"]. -/
def demoTree : DOMNode := .element "html" "/html" [] none false [demoBody]

theorem C2_replay_round_trip_witness :
    ∃ q : List String × DOMNode,
      find_history_element_in_tree
          (convert_dom_element_to_history_element ["body", "button"] demoLeaf) demoTree
          default_match_criteria = .ok (some q)
        ∧ hash_dom_element q.1 q.2 = hash_dom_element ["body", "button"] demoLeaf := by
  refine C2_replay_round_trip demoTree ["body", "button"] demoLeaf ?_ rfl
  have hexp : nodesWithBranch [] demoTree
      = [([], demoTree), (["body"], demoBody), (["body", "button"], demoLeaf)] := rfl
  rw [hexp]
  exact List.Mem.tail _ (List.Mem.tail _ (List.Mem.head _))

/-- C10: any node returned by `find_history_element_in_tree` (for every history element,
tree, and criteria list for which it returns a node) carries a non-None highlight index:
only highlighted nodes are ever considered as candidates. -/
theorem C10_only_highlighted_returned (hist : DOMHistoryElement) (t : DOMNode)
    (crit : List String) (q : List String × DOMNode)
    (hfound : find_history_element_in_tree hist t crit = .ok (some q)) :
    q.2.highlightIndex.isSome = true := by
  unfold find_history_element_in_tree at hfound
  by_cases hcrit : crit = []
  · rw [if_pos hcrit] at hfound; cases hfound
  · rw [if_neg hcrit] at hfound
    have hhead : (collectMatches crit (hash_dom_history_element hist) [] t).head?
        = some q := by
      injection hfound
    cases hcm : collectMatches crit (hash_dom_history_element hist) [] t with
    | nil => rw [hcm] at hhead; cases hhead
    | cons a rest =>
      rw [hcm] at hhead
      have haq : a = q := by injection hhead
      have hamem : a ∈ collectMatches crit (hash_dom_history_element hist) [] t := by
        rw [hcm]; exact List.mem_cons_self _ _
      unfold collectMatches at hamem
      have hcond := (List.mem_filter.mp hamem).2
      rw [haq, Bool.and_eq_true] at hcond
      exact hcond.1

theorem C10_only_highlighted_returned_witness :
    ((["body", "button"], demoLeaf) : List String × DOMNode).2.highlightIndex.isSome
      = true :=
  C10_only_highlighted_returned
    (convert_dom_element_to_history_element ["body", "button"] demoLeaf) demoTree
    default_match_criteria (["body", "button"], demoLeaf) rfl

theorem attributeKept_of_safe (k : String) (h : safeAttributeKeys.contains k = true) :
    attributeKept k = true := by
  have hm : k ∈ safeAttributeKeys := by simpa using h
  fin_cases hm <;> decide

theorem lookup_filter_kept (k : String) (hk : attributeKept k = true)
    (l : List (String × String)) :
    (l.filter (fun kv => attributeKept kv.1)).lookup k = l.lookup k := by
  induction l with
  | nil => rfl
  | cons kv rest ih =>
    by_cases hkept : attributeKept kv.1 = true
    · rw [List.filter_cons_of_pos (by simpa using hkept)]
      simp [List.lookup, ih]
    · rw [List.filter_cons_of_neg (by simpa using hkept)]
      have hne : (k == kv.1) = false := by
        cases hbeq : k == kv.1
        · rfl
        · exfalso
          have hkk : k = kv.1 := by simpa using hbeq
          rw [hkk] at hk
          exact absurd hk (by simpa using hkept)
      simp [List.lookup, hne, ih]

theorem filter_safe_of_kept (l : List (String × String)) :
    l.filter (fun kv => safeAttributeKeys.contains kv.1)
      = (l.filter (fun kv => attributeKept kv.1)).filter
          (fun kv => safeAttributeKeys.contains kv.1) := by
  induction l with
  | nil => rfl
  | cons kv rest ih =>
    by_cases hsafe : safeAttributeKeys.contains kv.1 = true
    · have hkept : attributeKept kv.1 = true := attributeKept_of_safe kv.1 hsafe
      rw [List.filter_cons_of_pos (by simpa using hsafe),
        List.filter_cons_of_pos (by simpa using hkept),
        List.filter_cons_of_pos (by simpa using hsafe), ih]
    · by_cases hkept : attributeKept kv.1 = true
      · rw [List.filter_cons_of_neg (by simpa using hsafe),
          List.filter_cons_of_pos (by simpa using hkept),
          List.filter_cons_of_neg (by simpa using hsafe), ih]
      · rw [List.filter_cons_of_neg (by simpa using hsafe),
          List.filter_cons_of_neg (by simpa using hkept), ih]

/-- C9: for every DOM element node, changing only denylisted attributes (keys in the fixed
exclusion list such as data-testid or data-state, or keys with an ng-, v- or data-v- prefix)
while leaving the tag, ancestors, xpath and all other attributes unchanged produces the same
fingerprint — identical branch-path hash, attributes hash, xpath hash and css selector.  An
entirely unchanged node is the special case `attrs1 = attrs2` (the fingerprint is a pure
function of the node, so it is then identical across snapshots). -/
theorem C9_fingerprint_stability (branch : List String) (tag xpath : String)
    (attrs1 attrs2 : List (String × String)) (hi : Option Nat) (sr : Bool)
    (children : List DOMNode)
    (hsame : attrs1.filter (fun kv => attributeKept kv.1)
        = attrs2.filter (fun kv => attributeKept kv.1)) :
    hash_dom_element branch (.element tag xpath attrs1 hi sr children)
      = hash_dom_element branch (.element tag xpath attrs2 hi sr children) := by
  have hattr : attributes_hash attrs1 = attributes_hash attrs2 := by
    unfold attributes_hash attributesString
    rw [hsame]
  have hcls : attrs1.lookup "class" = attrs2.lookup "class" := by
    rw [← lookup_filter_kept "class" (by decide) attrs1,
      ← lookup_filter_kept "class" (by decide) attrs2, hsame]
  have hsafe : attrs1.filter (fun kv => safeAttributeKeys.contains kv.1)
      = attrs2.filter (fun kv => safeAttributeKeys.contains kv.1) := by
    rw [filter_safe_of_kept, filter_safe_of_kept attrs2, hsame]
  have hcss : enhanced_css_selector_for_element (.element tag xpath attrs1 hi sr children)
      = enhanced_css_selector_for_element (.element tag xpath attrs2 hi sr children) := by
    unfold enhanced_css_selector_for_element
    simp only [DOMNode.attributesOf, DOMNode.xpathOf]
    rw [hcls, hsafe]
  unfold hash_dom_element
  simp only [DOMNode.attributesOf, DOMNode.xpathOf]
  rw [hattr, hcss]

theorem C9_fingerprint_stability_witness :
    hash_dom_element ["body"]
        (.element "div" "/html/body/div" [("id", "go"), ("data-testid", "x")] (some 1)
          false [])
      = hash_dom_element ["body"]
        (.element "div" "/html/body/div"
          [("id", "go"), ("data-testid", "y"), ("ng-reflect-model", "z")] (some 1)
          false []) :=
  C9_fingerprint_stability ["body"] "div" "/html/body/div"
    [("id", "go"), ("data-testid", "x")]
    [("id", "go"), ("data-testid", "y"), ("ng-reflect-model", "z")]
    (some 1) false [] (by decide)

/-! ## Theorems for claims C1, C3, C8 -/

theorem multiActLoop_abort_element_changed (env : MultiActEnv) (cached : SelectorMap)
    (cachedPH : List String) (chk : Bool) (n : Nat) (action : ActionModel)
    (rest : List ActionModel) (i : Nat) (results : List ActionResult) (k : Nat)
    (hidx : action.index = some k) (hi0 : i ≠ 0)
    (hdrift : (cached.lookup k).map (fun e => e.branch_path_hash)
      ≠ ((env.states i).lookup k).map (fun e => e.branch_path_hash)) :
    multiActLoop env cached cachedPH chk n (action :: rest) i results
      = (results ++ [⟨false, some (elementChangedMsg i n), none, true⟩], false) := by
  have hbne : (i != 0) = true := by simpa using hi0
  simp only [multiActLoop, hidx, Option.isSome_some, hbne, Bool.and_self, if_true,
    Option.getD_some]
  rw [if_pos hdrift]

theorem multiActLoop_abort_new_elements (env : MultiActEnv) (cached : SelectorMap)
    (cachedPH : List String) (n : Nat) (action : ActionModel)
    (rest : List ActionModel) (i : Nat) (results : List ActionResult) (k : Nat)
    (hidx : action.index = some k) (hi0 : i ≠ 0)
    (heq : (cached.lookup k).map (fun e => e.branch_path_hash)
      = ((env.states i).lookup k).map (fun e => e.branch_path_hash))
    (hsub : subsetB (pathHashes (env.states i)) cachedPH = false) :
    multiActLoop env cached cachedPH true n (action :: rest) i results
      = (results ++ [⟨false, some (somethingNewMsg i n), none, true⟩], false) := by
  have hbne : (i != 0) = true := by simpa using hi0
  simp only [multiActLoop, hidx, Option.isSome_some, hbne, Bool.and_self, if_true,
    Option.getD_some]
  rw [if_neg (by simp [heq]), if_pos (by simp [hsub])]

theorem multiActLoop_continue_after_checks (env : MultiActEnv) (cached : SelectorMap)
    (cachedPH : List String) (chk : Bool) (n : Nat) (action : ActionModel)
    (rest : List ActionModel) (i : Nat) (results : List ActionResult) (k : Nat)
    (r : ActionResult)
    (hidx : action.index = some k) (hi0 : i ≠ 0)
    (heq : (cached.lookup k).map (fun e => e.branch_path_hash)
      = ((env.states i).lookup k).map (fun e => e.branch_path_hash))
    (hsub : subsetB (pathHashes (env.states i)) cachedPH = true)
    (hact : env.act i = some r) (hdone : r.is_done = false) (herr : r.error = none)
    (hrest : rest ≠ []) :
    multiActLoop env cached cachedPH chk n (action :: rest) i results
      = multiActLoop env cached cachedPH chk n rest (i + 1) (results ++ [r]) := by
  have hbne : (i != 0) = true := by simpa using hi0
  have hrest2 : rest.isEmpty = false := by simpa [List.isEmpty_iff] using hrest
  simp only [multiActLoop, hidx, Option.isSome_some, hbne, Bool.and_self, if_true,
    Option.getD_some]
  rw [if_neg (by simp [heq]), if_neg (by simp [hsub])]
  simp only [hact, hdone, herr, hrest2, Option.isSome_none, Bool.or_self, Bool.or_false,
    Bool.false_eq_true, if_false]

theorem multiActLoop_cancelled (env : MultiActEnv) (cached : SelectorMap)
    (cachedPH : List String) (chk : Bool) (n : Nat) (action : ActionModel)
    (rest : List ActionModel) (i : Nat) (results : List ActionResult)
    (hskip : (action.index.isSome && i != 0) = false) (hact : env.act i = none) :
    multiActLoop env cached cachedPH chk n (action :: rest) i results
      = (if results.isEmpty then [cancelledResult] else results, true) := by
  simp only [multiActLoop, hskip, Bool.false_eq_true, if_false, hact]

theorem multiActLoop_skip_checks (env : MultiActEnv) (cached : SelectorMap)
    (cachedPH : List String) (chk : Bool) (n : Nat) (action : ActionModel)
    (rest : List ActionModel) (i : Nat) (results : List ActionResult) (r : ActionResult)
    (hskip : (action.index.isSome && i != 0) = false)
    (hact : env.act i = some r) (hdone : r.is_done = false) (herr : r.error = none)
    (hrest : rest ≠ []) :
    multiActLoop env cached cachedPH chk n (action :: rest) i results
      = multiActLoop env cached cachedPH chk n rest (i + 1) (results ++ [r]) := by
  have hrest2 : rest.isEmpty = false := by simpa [List.isEmpty_iff] using hrest
  simp only [multiActLoop, hskip, Bool.false_eq_true, if_false, hact, hdone, herr,
    Option.isSome_none, Bool.or_self, Bool.or_false, hrest2]

/-- Drift fingerprint with branch-path hash "bp" (cached variant). -/
def fpA : HashedDomElement := ⟨"bp", "attrsA", "xpA", "cssA"⟩

/-- Drift fingerprint with the same branch-path hash "bp" but different attributes, xpath
and css components. -/
def fpB : HashedDomElement := ⟨"bp", "attrsB", "xpB", "cssB"⟩

/-- A fingerprint with a fresh branch-path hash, not present in the cached map. -/
def fpNew : HashedDomElement := ⟨"bpNew", "attrsN", "xpN", "cssN"⟩

/-- An ordinary successful action result for position `k`. -/
def resOk (k : Nat) : ActionResult := ⟨false, some ("ok " ++ toString k), none, false⟩

/-- Environment for the C1 counterexample: at every observation the element at index 5 has
fingerprint `fpB` (same branch-path hash as the cached `fpA`, all other components
different); every action succeeds. -/
def envC1 : MultiActEnv :=
  { states := fun _ => [(5, fpB)]
    act := fun i => some (resOk i) }

/-- C1 counterexample: in a 3-action batch the full fingerprint cached for index 5 (`fpA`)
differs from the fingerprint currently at index 5 (`fpB`), yet because the branch-path
hashes agree, `multi_act` executes all three actions and returns three real results — an
index-addressed action other than the first IS executed while its target fingerprint
differs from the cached one. -/
theorem C1_counterexample :
    (((envC1.states 1).lookup 5) ≠ (([(5, fpA)] : SelectorMap).lookup 5))
    ∧ multi_act envC1 [⟨some 5⟩, ⟨some 5⟩, ⟨none⟩] [(5, fpA)] true
        = ([resOk 0, resOk 1, resOk 2], false) := by
  constructor
  · decide
  · rfl

/-- C1 (amended): `multi_act` compares the BRANCH-PATH HASH component of the fingerprint —
before every index-addressed action beyond the first, the branch-path hash of the element
currently at the index of the action must equal the cached one, otherwise the remaining actions
are aborted and one synthetic element-changed result is appended; in particular a 3-action
batch in which the target branch-path hash of the second action changed mid-batch yields exactly 2
results (1 real + 1 synthetic) and the outcome does not depend on what executing actions 2
and 3 would return. -/
theorem C1_abort_on_drift :
    (∀ (env : MultiActEnv) (cached : SelectorMap) (cachedPH : List String)
        (chk : Bool) (n : Nat) (action : ActionModel) (rest : List ActionModel)
        (i : Nat) (results : List ActionResult) (k : Nat),
      action.index = some k → i ≠ 0 →
      (cached.lookup k).map (fun e => e.branch_path_hash)
        ≠ ((env.states i).lookup k).map (fun e => e.branch_path_hash) →
      multiActLoop env cached cachedPH chk n (action :: rest) i results
        = (results ++ [⟨false, some (elementChangedMsg i n), none, true⟩], false))
    ∧ (∀ (env : MultiActEnv) (cached : SelectorMap) (chk : Bool)
        (a0 a2 : ActionModel) (k : Nat) (r0 : ActionResult),
      env.act 0 = some r0 → r0.is_done = false → r0.error = none →
      (cached.lookup k).map (fun e => e.branch_path_hash)
        ≠ ((env.states 1).lookup k).map (fun e => e.branch_path_hash) →
      multi_act env [a0, ⟨some k⟩, a2] cached chk
        = ([r0, ⟨false, some (elementChangedMsg 1 3), none, true⟩], false)) := by
  constructor
  · intro env cached cachedPH chk n action rest i results k hidx hi0 hdrift
    exact multiActLoop_abort_element_changed env cached cachedPH chk n action rest i
      results k hidx hi0 hdrift
  · intro env cached chk a0 a2 k r0 h0 hdone herr hdrift
    unfold multi_act
    rw [multiActLoop_skip_checks env cached (pathHashes cached) chk
      [a0, ⟨some k⟩, a2].length a0 [⟨some k⟩, a2] 0 [] r0 (by simp) h0 hdone herr
      (by simp)]
    rw [multiActLoop_abort_element_changed env cached (pathHashes cached) chk
      [a0, ⟨some k⟩, a2].length ⟨some k⟩ [a2] 1 ([] ++ [r0]) k rfl (by omega) hdrift]
    rfl

theorem C1_abort_on_drift_witness :
    multi_act envC1
        [⟨(none : Option Nat)⟩, ⟨some 7⟩, ⟨(none : Option Nat)⟩] [(7, fpNew)] false
      = ([resOk 0, ⟨false, some (elementChangedMsg 1 3), none, true⟩], false) :=
  C1_abort_on_drift.2 envC1 [(7, fpNew)] false ⟨none⟩ ⟨none⟩ 7 (resOk 0) rfl rfl rfl
    (by decide)

/-- Environment for the C3 theorems: the page now shows the cached element at index 5 plus
a brand-new element at index 7 whose branch-path hash is not in the cached set. -/
def envC3 : MultiActEnv :=
  { states := fun _ => [(5, fpA), (7, fpNew)]
    act := fun i => some (resOk i) }

/-- C3 counterexample: the current branch-path-hash set is a proper SUPERSET of the
pre-batch set (the claimed superset verification passes), yet `multi_act` under strict
checking aborts the batch with the synthetic new-elements result instead of continuing:
the claim has the set-inclusion direction backwards. -/
theorem C3_counterexample :
    subsetB (pathHashes [(5, fpA)]) (pathHashes (envC3.states 1)) = true
    ∧ multi_act envC3 [⟨none⟩, ⟨some 5⟩, ⟨none⟩] [(5, fpA)] true
        = ([resOk 0, ⟨false, some (somethingNewMsg 1 3), none, true⟩], false) := by
  constructor
  · rfl
  · rfl

/-- C3 (amended): with strict checking requested, before each index-addressed action beyond
the first the current branch-path-hash set is verified to be a SUBSET of the pre-batch set;
when new, unexpected hashes are present (the subset check fails) the remaining actions are
aborted with one synthetic new-elements result, and when the subset verification (together
with the per-index branch-path-hash comparison) passes, execution of the batch continues
with the current action. -/
theorem C3_strict_checking :
    (∀ (env : MultiActEnv) (cached : SelectorMap) (cachedPH : List String) (n : Nat)
        (action : ActionModel) (rest : List ActionModel) (i : Nat)
        (results : List ActionResult) (k : Nat),
      action.index = some k → i ≠ 0 →
      (cached.lookup k).map (fun e => e.branch_path_hash)
        = ((env.states i).lookup k).map (fun e => e.branch_path_hash) →
      subsetB (pathHashes (env.states i)) cachedPH = false →
      multiActLoop env cached cachedPH true n (action :: rest) i results
        = (results ++ [⟨false, some (somethingNewMsg i n), none, true⟩], false))
    ∧ (∀ (env : MultiActEnv) (cached : SelectorMap) (cachedPH : List String) (chk : Bool)
        (n : Nat) (action : ActionModel) (rest : List ActionModel) (i : Nat)
        (results : List ActionResult) (k : Nat) (r : ActionResult),
      action.index = some k → i ≠ 0 →
      (cached.lookup k).map (fun e => e.branch_path_hash)
        = ((env.states i).lookup k).map (fun e => e.branch_path_hash) →
      subsetB (pathHashes (env.states i)) cachedPH = true →
      env.act i = some r → r.is_done = false → r.error = none → rest ≠ [] →
      multiActLoop env cached cachedPH chk n (action :: rest) i results
        = multiActLoop env cached cachedPH chk n rest (i + 1) (results ++ [r])) := by
  constructor
  · intro env cached cachedPH n action rest i results k hidx hi0 heq hsub
    exact multiActLoop_abort_new_elements env cached cachedPH n action rest i results k
      hidx hi0 heq hsub
  · intro env cached cachedPH chk n action rest i results k r hidx hi0 heq hsub hact
      hdone herr hrest
    exact multiActLoop_continue_after_checks env cached cachedPH chk n action rest i
      results k r hidx hi0 heq hsub hact hdone herr hrest

theorem C3_strict_checking_witness :
    multiActLoop envC3 [(5, fpA)] (pathHashes [(5, fpA)]) true 3 [⟨some 5⟩, ⟨none⟩] 1
        [resOk 0]
      = ([resOk 0, ⟨false, some (somethingNewMsg 1 3), none, true⟩], false) :=
  C3_strict_checking.1 envC3 [(5, fpA)] (pathHashes [(5, fpA)]) 3 ⟨some 5⟩ [⟨none⟩] 1
    [resOk 0] 5 rfl (by omega) rfl (by decide)

/-- Environment for the C8 counterexample: action 0 completes normally, action 1 is
interrupted by cancellation. -/
def envC8 : MultiActEnv :=
  { states := fun _ => []
    act := fun i => if i = 0 then some (resOk 0) else none }

/-- C8 counterexample: a 2-action batch in which action 1 completed and action 2 was then
cancelled propagates the cancellation with only the one earlier result — no cancellation
ActionResult is recorded for the in-flight action (the recorded result carries no error at
all), contradicting the claim that this happens regardless of how many earlier actions
completed. -/
theorem C8_counterexample :
    multi_act envC8 [⟨none⟩, ⟨none⟩] [] true = ([resOk 0], true)
    ∧ cancelledResult ∉ (multi_act envC8 [⟨none⟩, ⟨none⟩] [] true).1
    ∧ (resOk 0).error = none := by
  refine ⟨rfl, ?_, rfl⟩
  decide

/-- C8 (amended): when execution of an action is interrupted by cancellation, `multi_act`
records the explicit cancellation ActionResult only when NO results have been accumulated
yet (the cancellation hit before any action result was recorded); when earlier actions in
the batch already produced results, the cancellation propagates upward with only those
earlier results and the in-flight action yields no result of its own. -/
theorem C8_cancellation :
    (∀ (env : MultiActEnv) (cached : SelectorMap) (chk : Bool) (a0 : ActionModel)
        (rest : List ActionModel),
      a0.index = none → env.act 0 = none →
      multi_act env (a0 :: rest) cached chk = ([cancelledResult], true))
    ∧ (∀ (env : MultiActEnv) (cached : SelectorMap) (cachedPH : List String) (chk : Bool)
        (n : Nat) (action : ActionModel) (rest : List ActionModel) (i : Nat)
        (results : List ActionResult),
      action.index = none → env.act i = none → results ≠ [] →
      multiActLoop env cached cachedPH chk n (action :: rest) i results
        = (results, true)) := by
  constructor
  · intro env cached chk a0 rest hidx hact
    unfold multi_act
    rw [multiActLoop_cancelled env cached (pathHashes cached) chk (a0 :: rest).length a0
      rest 0 [] (by simp) hact]
    rfl
  · intro env cached cachedPH chk n action rest i results hidx hact hne
    rw [multiActLoop_cancelled env cached cachedPH chk n action rest i results
      (by simp [hidx]) hact]
    simp [List.isEmpty_iff, hne]

theorem C8_cancellation_witness :
    multi_act { states := fun _ => [], act := fun _ => none } [⟨none⟩, ⟨none⟩] [] true
        = ([cancelledResult], true)
    ∧ multiActLoop envC8 [] [] true 2 [⟨none⟩] 1 [resOk 0] = ([resOk 0], true) :=
  ⟨C8_cancellation.1 { states := fun _ => [], act := fun _ => none } [] true ⟨none⟩
      [⟨none⟩] rfl rfl,
   C8_cancellation.2 envC8 [] [] true 2 ⟨none⟩ [] 1 [resOk 0] rfl rfl (by decide)⟩

/-! ## Theorem for claim C5 -/

theorem runLoop_no_break (stepF : Nat → AgentState → AgentState) (validateF : Nat → Bool)
    (max_failures max_steps : Nat) (validate_output : Bool)
    (hlen : ∀ s st, (stepF s st).history.length = st.history.length + 1)
    (hdone : ∀ s st, historyIsDone (stepF s st).history = false)
    (hstop : ∀ s st, (stepF s st).stopped = false)
    (hfail : ∀ s st, (stepF s st).consecutive_failures < max_failures) :
    ∀ (remaining step : Nat) (st : AgentState), st.stopped = false →
      st.consecutive_failures < max_failures →
      (runLoop stepF validateF max_failures max_steps validate_output remaining step st).2
          = false
      ∧ (runLoop stepF validateF max_failures max_steps validate_output remaining step
          st).1.history.length = st.history.length + remaining := by
  intro remaining
  induction remaining with
  | zero =>
    intro step st hs hf
    exact ⟨rfl, by simp [runLoop]⟩
  | succ rem ih =>
    intro step st hs hf
    have hrec := ih (step + 1) (stepF step st) (hstop step st) (hfail step st)
    simp only [runLoop]
    rw [if_neg (by omega), if_neg (by simp [hs]),
      if_neg (by simp [hdone step st])]
    refine ⟨hrec.1, ?_⟩
    rw [hrec.2, hlen step st]
    omega

/-- C5: a run in which no step ever produces a done result (and no stop, pause, or
failure-budget exit occurs, each step appending exactly one history record) executes all
`max_steps` steps and then appends exactly one synthetic
"Failed to complete task in maximum steps" record, returning `max_steps + 1` records in
total (so `max_steps = 5` yields 6) with the synthetic record last — and, being a total
function, returns without raising. -/
theorem C5_budget_exhaustion (stepF : Nat → AgentState → AgentState)
    (validateF : Nat → Bool) (max_failures max_steps : Nat) (validate_output : Bool)
    (hlen : ∀ s st, (stepF s st).history.length = st.history.length + 1)
    (hdone : ∀ s st, historyIsDone (stepF s st).history = false)
    (hstop : ∀ s st, (stepF s st).stopped = false)
    (hfail : ∀ s st, (stepF s st).consecutive_failures < max_failures)
    (hpos : 0 < max_failures) :
    (runAgent stepF validateF max_failures max_steps validate_output ⟨[], 0, false⟩).length
        = max_steps + 1
    ∧ (runAgent stepF validateF max_failures max_steps validate_output
        ⟨[], 0, false⟩).getLast? = some maxStepsFailureRecord := by
  have h := runLoop_no_break stepF validateF max_failures max_steps validate_output hlen
    hdone hstop hfail max_steps 0 ⟨[], 0, false⟩ rfl hpos
  unfold runAgent
  rw [h.1]
  simp only [Bool.false_eq_true, if_false]
  constructor
  · rw [List.length_append, h.2]
    simp
  · simp

/-- A step record holding one ordinary (non-done) action result. -/
def demoStepRecord : AgentHistoryRec :=
  { model_output := some ()
    result := [⟨false, some "stepped", none, true⟩]
    state := { url := "u", title := "t", tabs := [], interacted_element := [],
               screenshot := none }
    metadata := none }

/-- A concrete step function: appends one non-done record, resets failures, never stops. -/
def demoStepF (_s : Nat) (st : AgentState) : AgentState :=
  { history := st.history ++ [demoStepRecord], consecutive_failures := 0, stopped := false }

theorem C5_budget_exhaustion_witness :
    (runAgent demoStepF (fun _ => true) 3 5 false ⟨[], 0, false⟩).length = 5 + 1
    ∧ (runAgent demoStepF (fun _ => true) 3 5 false ⟨[], 0, false⟩).getLast?
        = some maxStepsFailureRecord :=
  C5_budget_exhaustion demoStepF (fun _ => true) 3 5 false
    (fun _ _ => by simp [demoStepF])
    (fun _ _ => by simp [demoStepF, historyIsDone, demoStepRecord])
    (fun _ _ => rfl)
    (fun _ _ => by simp [demoStepF])
    (by omega)

end BrowserUse
